import Mathlib

/-!
Shallow embedding of the D2Timers core (timer state machine, active-timer
registry, tick/alert scheduler, turbo reconfiguration, custom-duration input
parsing), translated from the Go sources:

  * `timer/utils.go`   — `DotaTimer`, `changeState`, `Start`, `Pause`,
    `Resume`, `Reset`, `Tick`, `SetCustomDuration`, `SetNormal_*`,
    `GetOriginals`;
  * `timer/config.go`  — `TimerState`, `TimerMode`, `TimerConfig`;
  * `app.go`           — `AddActiveTimer`, `RemoveActiveTimer`, `PlaySound`,
    `ToggleTurboMode`, the body of one period of the `tick` goroutine;
  * `ui/ui.go`         — `parseTime`, `setCustomTime`.

Go `int` is modelled as `Int` (durations are small, overflow is irrelevant,
and `Remaining` can legitimately go negative inside `Tick`).  The mutable
`App` side effects (`AddActiveTimer`, `RemoveActiveTimer`, `PlaySound`) are
modelled by explicitly threading an `AppState` value: the registry is a list
of timer names (names play the role of the Go pointers; the loaded timer
names are pairwise distinct) and `PlaySound` appends the sound identifier to
a log.  Each Go method that mutates its receiver becomes a function
returning the updated record.
-/

namespace D2Timers

/-- `TimerState` from `timer/config.go` (`StateInactive TimerState = iota`, …). -/
inductive TimerState where
  | inactive
  | activeAuto
  | activeManual
  | paused
  | unconfigured
deriving DecidableEq

/-- `TimerMode` from `timer/config.go` (`ModeAuto TimerMode = iota; ModeManual`). -/
inductive TimerMode where
  | auto
  | manual
deriving DecidableEq

/-- The integer representation of a `TimerMode` in the Go source
(`ModeAuto = 0`, `ModeManual = 1`).  `changeState` compares this value with
the literal `0`, which is why it is part of the model. -/
def TimerMode.code : TimerMode → Int
  | .auto => 0
  | .manual => 1

/-- `TimerConfig` from `timer/config.go`: the static per-timer definition
(the yaml-loaded variant with the `Normal_*` / `Turbo_*` duration pairs that
`DotaTimer` consumes). -/
structure TimerConfig where
  Name : String
  AudioFilename : String
  Priority : Int
  Normal_Auto_Initial : Int
  Normal_Auto_Repeat : Int
  Normal_Manual_Initial : Int
  Normal_Manual_Repeat : Int
  Turbo_Auto_Initial : Int
  Turbo_Auto_Repeat : Int
  Turbo_Manual_Initial : Int
  Turbo_Manual_Repeat : Int
deriving DecidableEq

/-- `DotaTimer` from `timer/utils.go`.  The embedded `*TimerConfig` is
flattened into the record: in Go, `SetNormal_Auto_InitialRepeat` mutates the
embedded config's `Normal_*` fields, so those are the mutable "effective"
duration fields, while the `original*` fields are copied once by
`NewDotaTimer` and never written again. -/
structure DotaTimer where
  Name : String
  AudioFilename : String
  Priority : Int
  Normal_Auto_Initial : Int
  Normal_Auto_Repeat : Int
  Normal_Manual_Initial : Int
  Normal_Manual_Repeat : Int
  Turbo_Auto_Initial : Int
  Turbo_Auto_Repeat : Int
  Turbo_Manual_Initial : Int
  Turbo_Manual_Repeat : Int
  State : TimerState
  mode : TimerMode
  Remaining : Int
  cycleDuration : Int
  CustomDurationSec : Int
  originalNormal_Auto_Initial : Int
  originalNormal_Auto_Repeat : Int
  originalTurbo_Auto_Initial : Int
  originalTurbo_Auto_Repeat : Int
  originalNormal_Manual_Initial : Int
  originalNormal_Manual_Repeat : Int
  originalTurbo_Manual_Initial : Int
  originalTurbo_Manual_Repeat : Int
deriving DecidableEq

/-- The observable `App` state the timer logic mutates through the `App`
interface: the active-timer registry (`AppManager.activeTimers`, a list of
timers, here identified by name) and the log of `PlaySound` calls. -/
structure AppState where
  activeTimers : List String
  sounds : List String
deriving DecidableEq

/-- `NewDotaTimer` from `timer/utils.go`: zero-valued mutable fields
(Go zero values: `Remaining = 0`, `cycleDuration = 0`,
`CustomDurationSec = 0`), `State = StateInactive`, `mode = ModeAuto`,
originals copied from the config, and the custom timer starts
`StateUnconfigured`. -/
def NewDotaTimer (c : TimerConfig) : DotaTimer :=
  { Name := c.Name
    AudioFilename := c.AudioFilename
    Priority := c.Priority
    Normal_Auto_Initial := c.Normal_Auto_Initial
    Normal_Auto_Repeat := c.Normal_Auto_Repeat
    Normal_Manual_Initial := c.Normal_Manual_Initial
    Normal_Manual_Repeat := c.Normal_Manual_Repeat
    Turbo_Auto_Initial := c.Turbo_Auto_Initial
    Turbo_Auto_Repeat := c.Turbo_Auto_Repeat
    Turbo_Manual_Initial := c.Turbo_Manual_Initial
    Turbo_Manual_Repeat := c.Turbo_Manual_Repeat
    State := if c.Name = "Custom Timer" then .unconfigured else .inactive
    mode := .auto
    Remaining := 0
    cycleDuration := 0
    CustomDurationSec := 0
    originalNormal_Auto_Initial := c.Normal_Auto_Initial
    originalNormal_Auto_Repeat := c.Normal_Auto_Repeat
    originalTurbo_Auto_Initial := c.Turbo_Auto_Initial
    originalTurbo_Auto_Repeat := c.Turbo_Auto_Repeat
    originalNormal_Manual_Initial := c.Normal_Manual_Initial
    originalNormal_Manual_Repeat := c.Normal_Manual_Repeat
    originalTurbo_Manual_Initial := c.Turbo_Manual_Initial
    originalTurbo_Manual_Repeat := c.Turbo_Manual_Repeat }

/-- `AppManager.AddActiveTimer` from `app.go`: scan for the timer, return
unchanged if already present, otherwise append. -/
def AddActiveTimer (a : AppState) (n : String) : AppState :=
  if n ∈ a.activeTimers then a
  else { a with activeTimers := a.activeTimers ++ [n] }

/-- `AppManager.RemoveActiveTimer` from `app.go`: remove the first
occurrence of the timer from the registry (no-op when absent). -/
def RemoveActiveTimer (a : AppState) (n : String) : AppState :=
  { a with activeTimers := a.activeTimers.erase n }

/-- `AppManager.PlaySound` from `app.go`, abstracted to appending the sound
identifier to the log of played alerts. -/
def PlaySound (a : AppState) (filename : String) : AppState :=
  { a with sounds := a.sounds ++ [filename] }

/-- `DotaTimer.changeState` from `timer/utils.go`: set the state, set the
mode only when the passed mode value is nonzero (`if newMode != 0`, and
`ModeAuto == 0`), then register or deregister according to the new state. -/
def changeState (a : AppState) (t : DotaTimer) (newState : TimerState)
    (newMode : TimerMode) : DotaTimer × AppState :=
  let t1 : DotaTimer :=
    { t with State := newState
             mode := if newMode.code ≠ 0 then newMode else t.mode }
  match newState with
  | .activeAuto | .activeManual => (t1, AddActiveTimer a t1.Name)
  | .paused | .inactive | .unconfigured => (t1, RemoveActiveTimer a t1.Name)

/-- `DotaTimer.Start` from `timer/utils.go`. -/
def Start (a : AppState) (t : DotaTimer) (mode : TimerMode) :
    DotaTimer × AppState :=
  if t.Name = "Custom Timer" ∧ t.CustomDurationSec = 0 then (t, a)
  else
    let newState : TimerState :=
      match mode with
      | .auto => .activeAuto
      | .manual => .activeManual
    let t1 : DotaTimer :=
      if t.State ≠ .paused then
        if t.Name = "Custom Timer" then
          { t with Remaining := t.CustomDurationSec
                   cycleDuration := t.CustomDurationSec }
        else if mode = .auto then
          { t with Remaining := t.Normal_Auto_Initial
                   cycleDuration := t.Normal_Auto_Repeat }
        else
          { t with Remaining := t.Normal_Manual_Initial
                   cycleDuration := t.Normal_Manual_Repeat }
      else t
    changeState a t1 newState mode

/-- `DotaTimer.Pause` from `timer/utils.go`. -/
def Pause (a : AppState) (t : DotaTimer) : DotaTimer × AppState :=
  match t.State with
  | .activeManual => changeState a t .paused .manual
  | .activeAuto => changeState a t .paused .auto
  | _ => (t, a)

/-- `DotaTimer.Resume` from `timer/utils.go`. -/
def Resume (a : AppState) (t : DotaTimer) : DotaTimer × AppState :=
  if t.State = .paused then
    match t.mode with
    | .manual => changeState a t .activeManual .manual
    | .auto => changeState a t .activeAuto .auto
  else (t, a)

/-- `DotaTimer.Reset` from `timer/utils.go`.  The Go literal `0` passed to
`changeState` as the mode argument is `ModeAuto`. -/
def Reset (a : AppState) (t : DotaTimer) : DotaTimer × AppState :=
  let t1 : DotaTimer := { t with Remaining := 0, cycleDuration := 0 }
  if t1.Name = "Custom Timer" then
    changeState a { t1 with CustomDurationSec := 0 } .unconfigured .auto
  else
    changeState a { t1 with mode := .auto } .inactive .auto

/-- `DotaTimer.Alert` from `timer/utils.go`: play the timer's sound. -/
def Alert (a : AppState) (t : DotaTimer) : AppState :=
  PlaySound a t.AudioFilename

/-- `DotaTimer.Tick` from `timer/utils.go`: decrement, and on expiry alert,
then either (custom timer in `StateActiveManual`) reload the custom duration
and go `StateInactive`, or reload the cycle duration in place. -/
def Tick (a : AppState) (t : DotaTimer) : DotaTimer × AppState :=
  let t1 : DotaTimer := { t with Remaining := t.Remaining - 1 }
  if t1.Remaining ≤ 0 then
    let a1 := Alert a t1
    if t1.Name = "Custom Timer" ∧ t1.State = .activeManual then
      changeState a1 { t1 with Remaining := t1.CustomDurationSec } .inactive .auto
    else
      ({ t1 with Remaining := t1.cycleDuration }, a1)
  else (t1, a)

/-- `DotaTimer.SetCustomDuration` from `timer/utils.go`: sets the custom
duration and forces the state to `StateInactive`; it does not go through
`changeState` and touches neither the registry nor any other field. -/
def SetCustomDuration (t : DotaTimer) (val : Int) : DotaTimer :=
  { t with CustomDurationSec := val, State := .inactive }

/-- The operations of the core acting on one timer, as dispatched by
`AppManager.commandLoop` (`CmdStart`/`CmdPause`/`CmdResume`/`CmdReset` in
`control`), by the tick goroutine (`Tick`) and by the custom-duration input
(`SetCustomDuration`). -/
inductive CoreOp where
  | start (m : TimerMode)
  | pause
  | resume
  | reset
  | tick
  | setCustomDuration (v : Int)
deriving DecidableEq

/-- Apply one core operation to a timer and the app state.
`SetCustomDuration` does not receive the `App` at all in the source, so it
leaves the app state untouched. -/
def applyOp (op : CoreOp) (a : AppState) (t : DotaTimer) :
    DotaTimer × AppState :=
  match op with
  | .start m => Start a t m
  | .pause => Pause a t
  | .resume => Resume a t
  | .reset => Reset a t
  | .tick => Tick a t
  | .setCustomDuration v => (SetCustomDuration t v, a)

/-- The configurations of one timer (plus the app state) reachable from a
freshly constructed timer and an empty registry by the six core operations. -/
inductive Reachable : DotaTimer × AppState → Prop where
  | init (c : TimerConfig) :
      Reachable (NewDotaTimer c, { activeTimers := [], sounds := [] })
  | step (op : CoreOp) {s : DotaTimer × AppState} :
      Reachable s → Reachable (applyOp op s.2 s.1)

/-- Whether a timer state counts as active (member of the registry). -/
def TimerState.isActive : TimerState → Prop
  | .activeAuto => True
  | .activeManual => True
  | _ => False

instance (s : TimerState) : Decidable s.isActive := by
  cases s <;> simp [TimerState.isActive] <;> infer_instance

/-- The Active-Timer Registry invariant of the spec, for one timer:
the timer is a member of the registry iff its state is `StateActiveAuto` or
`StateActiveManual`. -/
def registryInvariant (t : DotaTimer) (a : AppState) : Prop :=
  t.Name ∈ a.activeTimers ↔ t.State.isActive

instance (t : DotaTimer) (a : AppState) : Decidable (registryInvariant t a) := by
  unfold registryInvariant; infer_instance

/-- Reachability restricted to the operations that maintain the registry
invariant: all six core operations, except that `SetCustomDuration` is only
applied while the timer is not in an active state. -/
inductive ReachableSafe : DotaTimer × AppState → Prop where
  | init (c : TimerConfig) :
      ReachableSafe (NewDotaTimer c, { activeTimers := [], sounds := [] })
  | step (op : CoreOp) {s : DotaTimer × AppState} :
      ReachableSafe s →
      (∀ v, op = CoreOp.setCustomDuration v → ¬ s.1.State.isActive) →
      ReachableSafe (applyOp op s.2 s.1)

/-- `DotaTimer.SetNormal_Auto_InitialRepeat` from `timer/utils.go`. -/
def SetNormal_Auto_InitialRepeat (t : DotaTimer) (initial rep : Int) :
    DotaTimer :=
  { t with Normal_Auto_Initial := initial, Normal_Auto_Repeat := rep }

/-- `DotaTimer.SetNormal_Manual_InitialRepeat` from `timer/utils.go`. -/
def SetNormal_Manual_InitialRepeat (t : DotaTimer) (initial rep : Int) :
    DotaTimer :=
  { t with Normal_Manual_Initial := initial, Normal_Manual_Repeat := rep }

/-- The body of the per-timer loop of `AppManager.ToggleTurboMode` in
`app.go`: when enabling, swap in a turbo pair only when its
`originalTurbo_*_Initial` is nonzero; when disabling, unconditionally
restore both original normal pairs (`GetOriginals` returns the `original*`
fields). -/
def toggleTurboTimer : Bool → DotaTimer → DotaTimer
  | true, t =>
    let t1 :=
      if t.originalTurbo_Auto_Initial ≠ 0 then
        SetNormal_Auto_InitialRepeat t t.originalTurbo_Auto_Initial
          t.originalTurbo_Auto_Repeat
      else t
    if t1.originalTurbo_Manual_Initial ≠ 0 then
      SetNormal_Manual_InitialRepeat t1 t1.originalTurbo_Manual_Initial
        t1.originalTurbo_Manual_Repeat
    else t1
  | false, t =>
    SetNormal_Manual_InitialRepeat
      (SetNormal_Auto_InitialRepeat t t.originalNormal_Auto_Initial
        t.originalNormal_Auto_Repeat)
      t.originalNormal_Manual_Initial t.originalNormal_Manual_Repeat

/-- The part of `AppManager` state that `ToggleTurboMode` reads and writes:
the fixed timer list and the `turboMode` flag. -/
structure TurboSys where
  allTimers : List DotaTimer
  turboMode : Bool
deriving DecidableEq

/-- `AppManager.ToggleTurboMode` from `app.go`.  When enabling while some
timer is neither `StateInactive` nor `StateUnconfigured`, it returns the
error before performing any mutation; otherwise it rewrites every timer's
effective duration pairs and flips the flag.  The returned pair is
(resulting state, error): the error path returns the state unchanged. -/
def ToggleTurboMode (s : TurboSys) (enable : Bool) : TurboSys × Option String :=
  if enable ∧ ¬ (∀ t ∈ s.allTimers,
      t.State = TimerState.inactive ∨ t.State = TimerState.unconfigured) then
    (s, some "cannot enable turbo: not all timers in initial state")
  else
    ({ allTimers := s.allTimers.map (toggleTurboTimer enable)
       turboMode := enable }, none)

/-- The whole-application state the tick goroutine operates on: the fixed
list of all timers (identified by their pairwise-distinct names) plus the
registry and sound log. -/
structure SysState where
  allTimers : List DotaTimer
  app : AppState
deriving DecidableEq

/-- Look a timer up by name in the timer list (stands for dereferencing the
shared `*DotaTimer` pointer stored in `activeTimers`). -/
def findTimer (ts : List DotaTimer) (n : String) : Option DotaTimer :=
  ts.find? (fun t => t.Name = n)

/-- Write an updated timer back into the timer list (the in-place mutation
through the shared pointer). -/
def updateTimer (ts : List DotaTimer) (t1 : DotaTimer) : List DotaTimer :=
  ts.map (fun u => if u.Name = t1.Name then t1 else u)

/-- One iteration of the `for _, t := range activeCopy` loop in
`AppManager.tick` (`app.go`): run `Tick` on the named timer, write it back,
and report the ticked timer so the caller can test `t.Remaining <= 0`. -/
def tickOne (s : SysState) (n : String) : SysState × Option DotaTimer :=
  match findTimer s.allTimers n with
  | none => (s, none)
  | some t =>
    let r := Tick s.app t
    ({ allTimers := updateTimer s.allTimers r.1, app := r.2 }, some r.1)

/-- `timersToAlert[0]` after `sort.Slice(..., Priority > Priority)`:
a maximal-priority element of the collected list (first-encountered on
ties). -/
def selectAlertTarget (l : List DotaTimer) : Option DotaTimer :=
  l.foldl
    (fun best t =>
      match best with
      | none => some t
      | some b => if t.Priority > b.Priority then some t else best)
    none

/-- One period of the `tick` goroutine in `app.go`: snapshot the registry,
run `Tick` on each active timer in registry order collecting those whose
`Remaining` field is `≤ 0` *after* `Tick` returned, and if that list is
nonempty alert its highest-priority element. -/
def tickPeriod (s : SysState) : SysState :=
  let activeCopy := s.app.activeTimers
  let r :=
    activeCopy.foldl
      (fun (acc : SysState × List DotaTimer) n =>
        let r1 := tickOne acc.1 n
        match r1.2 with
        | some t1 =>
          (r1.1, if t1.Remaining ≤ 0 then acc.2 ++ [t1] else acc.2)
        | none => (r1.1, acc.2))
      (s, [])
  match selectAlertTarget r.2 with
  | some target => { r.1 with app := Alert r.1.app target }
  | none => r.1

/-- Base-10 digit accumulation for `strconv.Atoi`: succeeds iff every
character is an ASCII digit. -/
def digitsVal : List Char → Nat → Option Nat
  | [], acc => some acc
  | c :: rest, acc =>
    if '0' ≤ c ∧ c ≤ '9' then
      digitsVal rest (acc * 10 + (c.toNat - '0'.toNat))
    else none

/-- The largest value of Go's 64-bit `int`. -/
def int64Max : Int := 2 ^ 63 - 1

/-- The smallest value of Go's 64-bit `int`. -/
def int64Min : Int := -(2 ^ 63)

/-- Two's-complement wrap-around of signed 64-bit integer arithmetic:
the unique value in `[int64Min, int64Max]` congruent to `x` mod `2 ^ 64`.
Go's `min*60 + sec` in `parseTime` is computed in this arithmetic. -/
def wrap64 (x : Int) : Int := (x + 2 ^ 63) % 2 ^ 64 - 2 ^ 63

/-- `strconv.Atoi` from the Go standard library (equivalent to
`ParseInt(s, 10, 64)` on a 64-bit platform): an optional single leading
sign followed by at least one ASCII digit, with an error — `none` — when
the value falls outside the signed 64-bit range. -/
def atoi (s : String) : Option Int :=
  match s.data with
  | [] => none
  | c :: rest =>
    if c = '+' then
      match rest with
      | [] => none
      | _ :: _ =>
        match digitsVal rest 0 with
        | none => none
        | some n => if (n : Int) ≤ int64Max then some (n : Int) else none
    else if c = '-' then
      match rest with
      | [] => none
      | _ :: _ =>
        match digitsVal rest 0 with
        | none => none
        | some n => if int64Min ≤ -(n : Int) then some (-(n : Int)) else none
    else
      match digitsVal (c :: rest) 0 with
      | none => none
      | some n => if (n : Int) ≤ int64Max then some (n : Int) else none

/-- `strings.Split(input, ":")` on the character list: one part per
`':'`-separated segment (n separators give n+1 parts). -/
def splitColonChars : List Char → List Char → List (List Char)
  | [], acc => [acc.reverse]
  | c :: rest, acc =>
    if c = ':' then acc.reverse :: splitColonChars rest []
    else splitColonChars rest (c :: acc)

/-- `strings.Split(input, ":")`. -/
def splitColon (s : String) : List String :=
  (splitColonChars s.data []).map (fun l => String.mk l)

/-- The `val, err` computation of `parseTime` in `ui/ui.go`, before the
final range check: `mm:ss` (both parts `Atoi`-parsed, the seconds part in
`[0, 60)`) when the input contains a colon — with exactly two parts —
otherwise a bare `Atoi` integer.  `none` stands for a set `err`.  The
`min*60 + sec` of the source is machine `int` arithmetic, hence the
`wrap64`: a huge in-range minutes value can overflow into `(0, 1800]`. -/
def parseTimeRaw (input : String) : Option Int :=
  if ':' ∈ input.data then
    match splitColon input with
    | [m, s] =>
      match atoi m with
      | none => none
      | some mi =>
        match atoi s with
        | some si =>
          if 0 ≤ si ∧ si < 60 then some (wrap64 (mi * 60 + si)) else none
        | none => none
    | _ => none
  else atoi input

/-- `parseTime` from `ui/ui.go`: the raw parse followed by the
`err != nil || val <= 0 || val > 1800` rejection. -/
def parseTime (input : String) : Option Int :=
  match parseTimeRaw input with
  | some v => if v ≤ 0 ∨ v > 1800 then none else some v
  | none => none

/-- The `setCustomTime` closure in `ui/ui.go` (`NewTimerWidget`), restricted
to its effect on the timer: on a parse error it returns without touching the
timer; on success it calls `t.SetCustomDuration(val)`. -/
def setCustomTime (t : DotaTimer) (input : String) : DotaTimer :=
  match parseTime input with
  | none => t
  | some v => SetCustomDuration t v

/-- Rejoin `':'`-split parts (inverse of `splitColonChars`, used to state
that the accepted `mm:ss` inputs are exactly the two-part splits). -/
def joinParts : List (List Char) → List Char
  | [] => []
  | [p] => p
  | p :: q :: rest => p ++ ':' :: joinParts (q :: rest)

/-- The input grammar of the custom-duration entry as the spec states it:
either `mm:ss` with both fields `Atoi`-integers and the seconds field in
`[0, 59]`, or a bare integer, with the resulting value — the mathematical
`mm*60 + ss` — in `(0, 1800]`.  This is the claim's idealized reading; the
source wraps that product in 64-bit arithmetic, so the two disagree (see
the counterexample). -/
def specAccepts (s : String) (v : Int) : Prop :=
  (0 < v ∧ v ≤ 1800) ∧
  ((':' ∉ s.data ∧ atoi s = some v) ∨
   (∃ m sec mi si, s = m ++ ":" ++ sec ∧ atoi m = some mi ∧
      atoi sec = some si ∧ 0 ≤ si ∧ si < 60 ∧ v = mi * 60 + si))

/-- The input grammar the code actually implements: as `specAccepts`, but
the `mm:ss` value is `min*60 + sec` computed in wrapping 64-bit integer
arithmetic, exactly as in `parseTime` (`ui/ui.go`). -/
def specAcceptsWrapped (s : String) (v : Int) : Prop :=
  (0 < v ∧ v ≤ 1800) ∧
  ((':' ∉ s.data ∧ atoi s = some v) ∨
   (∃ m sec mi si, s = m ++ ":" ++ sec ∧ atoi m = some mi ∧
      atoi sec = some si ∧ 0 ≤ si ∧ si < 60 ∧ v = wrap64 (mi * 60 + si)))

/-- A concrete non-custom timer definition (durations as in the shipped
configuration style; no turbo override). -/
def roshCfg : TimerConfig :=
  ⟨"Roshan", "audio_timer3.ogg", 7, 480, 480, 600, 600, 0, 0, 0, 0⟩

/-- The concrete custom-timer definition (no preset durations). -/
def customCfg : TimerConfig :=
  ⟨"Custom Timer", "audio_timer4.ogg", 1, 0, 0, 0, 0, 0, 0, 0, 0⟩

/-- The application state at startup: empty registry, no sounds played. -/
def emptyApp : AppState := { activeTimers := [], sounds := [] }

/-- Reachable configuration sequence for the custom timer:
fresh custom timer (Unconfigured). -/
def c1sys0 : DotaTimer × AppState := (NewDotaTimer customCfg, emptyApp)

/-- … after the user sets a 90-second custom duration (now Inactive). -/
def c1sys1 : DotaTimer × AppState :=
  applyOp (CoreOp.setCustomDuration 90) c1sys0.2 c1sys0.1

/-- … after Start(Manual): ActiveManual and registered. -/
def c1sys2 : DotaTimer × AppState :=
  applyOp (CoreOp.start TimerMode.manual) c1sys1.2 c1sys1.1

/-- … after a second SetCustomDuration while the timer is active. -/
def c1sys3 : DotaTimer × AppState :=
  applyOp (CoreOp.setCustomDuration 60) c1sys2.2 c1sys2.1

/-- Reachable configuration for the C5 scenario: Start(Manual) on a fresh
non-custom timer. -/
def c5sys1 : DotaTimer × AppState :=
  Start emptyApp (NewDotaTimer roshCfg) TimerMode.manual

/-- … then Start(Auto) while ActiveManual: the state becomes ActiveAuto but
`changeState` does not record mode Auto because `ModeAuto == 0`. -/
def c5sys2 : DotaTimer × AppState := Start c5sys1.2 c5sys1.1 TimerMode.auto

/-- Timer definition "A", priority 5, auto durations initial 1 / repeat 30. -/
def c2cfgA : TimerConfig := ⟨"A", "audio_timer1.ogg", 5, 1, 30, 1, 30, 0, 0, 0, 0⟩

/-- Timer definition "B", priority 9, auto durations initial 1 / repeat 30. -/
def c2cfgB : TimerConfig := ⟨"B", "audio_timer2.ogg", 9, 1, 30, 1, 30, 0, 0, 0, 0⟩

/-- Timer "A" freshly started in Auto mode (Remaining = 1). -/
def c2rA : DotaTimer × AppState :=
  Start emptyApp (NewDotaTimer c2cfgA) TimerMode.auto

/-- Timer "B" freshly started in Auto mode (Remaining = 1), same registry. -/
def c2rB : DotaTimer × AppState := Start c2rA.2 (NewDotaTimer c2cfgB) TimerMode.auto

/-- The two-timer system in which both timers expire on the next tick
period: priorities 5 and 9, both Remaining = 1, both registered. -/
def c2sys : SysState := { allTimers := [c2rA.1, c2rB.1], app := c2rB.2 }

theorem mem_AddActiveTimer (a : AppState) (n : String) :
    n ∈ (AddActiveTimer a n).activeTimers := by
  unfold AddActiveTimer
  split_ifs with h
  · exact h
  · simp

/-- Claim C2 (code bug): in the tick period of `c2sys`, both timers (of
priorities 5 and 9, both with `Remaining = 1`) expire, yet two alerts are
played — one from inside each `Tick` — and the priority-selection code
raises no alert at all, because `timersToAlert` is filtered on `Remaining`
*after* `Tick` reloaded it with the 30-second cycle.  The claim's "exactly
one alert ... for a timer of highest priority" fails: the played-sound log
has length 2, not 1. -/
theorem c2_two_alerts_in_one_period :
    c2sys.app.activeTimers = ["A", "B"] ∧
    c2sys.app.sounds = [] ∧
    c2sys.allTimers.map (fun t => t.Remaining) = [1, 1] ∧
    c2sys.allTimers.map (fun t => t.Priority) = [5, 9] ∧
    (tickPeriod c2sys).app.sounds = ["audio_timer1.ogg", "audio_timer2.ogg"] ∧
    ((tickPeriod c2sys).app.sounds).length ≠ 1 := by
  decide

/-- Claim C1 counterexample: the configuration `c1sys2` (custom timer
configured to 90 seconds and started in Manual mode) is reachable by core
operations, its timer is active and registered, and applying
`SetCustomDuration 60` to it (= `c1sys3`) leaves the timer registered while
its state reads Inactive: the registry invariant does not survive that
operation. -/
theorem c1_counterexample :
    Reachable c1sys2 ∧ c1sys2.1.State.isActive ∧
    c1sys2.1.Name ∈ c1sys2.2.activeTimers ∧
    ¬ registryInvariant c1sys3.1 c1sys3.2 := by
  refine ⟨?_, by decide, by decide, by decide⟩
  exact Reachable.step (CoreOp.start TimerMode.manual)
    (Reachable.step (CoreOp.setCustomDuration 90) (Reachable.init customCfg))

/-- Claim C5 counterexample: `c5sys2` is produced by Start(Manual) then
Start(Auto) on a fresh timer, so it is ActiveAuto while its remembered mode
is still Manual (`changeState` skips the mode write because
`ModeAuto == 0`); Pause then Resume lands in ActiveManual, not the
ActiveAuto state held before the Pause. -/
theorem c5_counterexample :
    c5sys2.1.State = TimerState.activeAuto ∧
    c5sys2.1.mode = TimerMode.manual ∧
    (Resume (Pause c5sys2.2 c5sys2.1).2 (Pause c5sys2.2 c5sys2.1).1).1.State =
      TimerState.activeManual ∧
    TimerState.activeManual ≠ TimerState.activeAuto := by
  decide

/-- Claim C5 (amended): Pause then Resume on an active timer preserves
`Remaining` exactly and returns to the active state determined by the mode
field held before the Pause; the original active state is restored whenever
that mode field agrees with the active state — always for ActiveManual
(Pause re-records Manual), and for ActiveAuto when the mode is Auto. -/
theorem c5_pause_resume (a : AppState) (t : DotaTimer)
    (h : t.State = TimerState.activeManual ∨
      (t.State = TimerState.activeAuto ∧ t.mode = TimerMode.auto)) :
    (Resume (Pause a t).2 (Pause a t).1).1.State = t.State ∧
    (Resume (Pause a t).2 (Pause a t).1).1.Remaining = t.Remaining := by
  rcases h with h | ⟨h, hm⟩
  · simp [Pause, Resume, changeState, TimerMode.code, h]
  · simp [Pause, Resume, changeState, TimerMode.code, h, hm]

theorem c5_pause_resume_witness :
    (Resume (Pause c5sys1.2 c5sys1.1).2 (Pause c5sys1.2 c5sys1.1).1).1.State =
      c5sys1.1.State ∧
    (Resume (Pause c5sys1.2 c5sys1.1).2 (Pause c5sys1.2 c5sys1.1).1).1.Remaining =
      c5sys1.1.Remaining :=
  c5_pause_resume c5sys1.2 c5sys1.1 (by decide)

/-- Claim C7: enabling turbo mode while some timer is neither Inactive nor
Unconfigured fails with the precondition error and returns the state
entirely unchanged (no timer's durations touched, flag not flipped). -/
theorem c7_toggle_turbo_fails (s : TurboSys) (t : DotaTimer)
    (ht : t ∈ s.allTimers) (h1 : t.State ≠ TimerState.inactive)
    (h2 : t.State ≠ TimerState.unconfigured) :
    ToggleTurboMode s true =
      (s, some "cannot enable turbo: not all timers in initial state") := by
  unfold ToggleTurboMode
  rw [if_pos ⟨rfl, fun hall => (hall t ht).elim h1 h2⟩]

/-- A one-timer system containing an ActiveManual timer. -/
theorem c7_toggle_turbo_fails_witness :
    ToggleTurboMode { allTimers := [c5sys1.1], turboMode := false } true =
      ({ allTimers := [c5sys1.1], turboMode := false },
        some "cannot enable turbo: not all timers in initial state") :=
  c7_toggle_turbo_fails _ c5sys1.1 (by simp) (by decide) (by decide)

/-- Claim C9: Reset from any state zeroes `Remaining` and `cycleDuration`
and deregisters the timer; the custom timer moreover returns to
Unconfigured with its custom duration cleared, every other timer to
Inactive. -/
theorem c9_reset (a : AppState) (t : DotaTimer)
    (hnd : a.activeTimers.Nodup) :
    (Reset a t).1.Remaining = 0 ∧ (Reset a t).1.cycleDuration = 0 ∧
    t.Name ∉ (Reset a t).2.activeTimers ∧
    (t.Name = "Custom Timer" →
      (Reset a t).1.State = TimerState.unconfigured ∧
      (Reset a t).1.CustomDurationSec = 0) ∧
    (t.Name ≠ "Custom Timer" → (Reset a t).1.State = TimerState.inactive) := by
  have hne : t.Name ∉ a.activeTimers.erase t.Name := hnd.not_mem_erase
  by_cases hc : t.Name = "Custom Timer"
  · rw [hc] at hne
    simp [Reset, changeState, RemoveActiveTimer, TimerMode.code, hc, hne]
  · simp [Reset, changeState, RemoveActiveTimer, TimerMode.code, hc, hne]

theorem c9_reset_witness :
    (Reset c5sys1.2 c5sys1.1).1.Remaining = 0 ∧
    (Reset c5sys1.2 c5sys1.1).1.cycleDuration = 0 ∧
    c5sys1.1.Name ∉ (Reset c5sys1.2 c5sys1.1).2.activeTimers ∧
    (c5sys1.1.Name = "Custom Timer" →
      (Reset c5sys1.2 c5sys1.1).1.State = TimerState.unconfigured ∧
      (Reset c5sys1.2 c5sys1.1).1.CustomDurationSec = 0) ∧
    (c5sys1.1.Name ≠ "Custom Timer" →
      (Reset c5sys1.2 c5sys1.1).1.State = TimerState.inactive) :=
  c9_reset c5sys1.2 c5sys1.1 (by decide)

/-- Claim C10: `SetCustomDuration v` from any prior state sets the custom
duration to `v` and forces the state to Inactive, leaving `Remaining`,
`cycleDuration`, the mode and the app state (in particular the registry)
untouched; applied to a registered active timer it therefore leaves the
timer registered while its state reads Inactive. -/
theorem c10_setCustomDuration (a : AppState) (t : DotaTimer) (v : Int) :
    (applyOp (CoreOp.setCustomDuration v) a t).2 = a ∧
    (applyOp (CoreOp.setCustomDuration v) a t).1.CustomDurationSec = v ∧
    (applyOp (CoreOp.setCustomDuration v) a t).1.State = TimerState.inactive ∧
    (applyOp (CoreOp.setCustomDuration v) a t).1.Remaining = t.Remaining ∧
    (applyOp (CoreOp.setCustomDuration v) a t).1.cycleDuration = t.cycleDuration ∧
    (applyOp (CoreOp.setCustomDuration v) a t).1.mode = t.mode ∧
    (t.State.isActive ∧ t.Name ∈ a.activeTimers →
      (applyOp (CoreOp.setCustomDuration v) a t).1.Name ∈
        (applyOp (CoreOp.setCustomDuration v) a t).2.activeTimers ∧
      (applyOp (CoreOp.setCustomDuration v) a t).1.State = TimerState.inactive) :=
  ⟨rfl, rfl, rfl, rfl, rfl, rfl, fun h => ⟨h.2, rfl⟩⟩

theorem c10_setCustomDuration_witness :
    (applyOp (CoreOp.setCustomDuration 60) c1sys2.2 c1sys2.1).2 = c1sys2.2 ∧
    c1sys2.1.State.isActive ∧
    (applyOp (CoreOp.setCustomDuration 60) c1sys2.2 c1sys2.1).1.Name ∈
      (applyOp (CoreOp.setCustomDuration 60) c1sys2.2 c1sys2.1).2.activeTimers :=
  ⟨(c10_setCustomDuration c1sys2.2 c1sys2.1 60).1, by decide,
    ((c10_setCustomDuration c1sys2.2 c1sys2.1 60).2.2.2.2.2.2
      ⟨by decide, by decide⟩).1⟩

/-- Claim C3: `Tick` on an active timer decrements `Remaining` by one; if
the result is still positive nothing else changes; otherwise the custom
timer in `StateActiveManual` gets `Remaining` reloaded with the stored
custom duration and becomes Inactive (deregistered), and every other timer
gets `Remaining` reloaded with `cycleDuration`, keeping its state and its
registration. -/
theorem c3_tick (a : AppState) (t : DotaTimer)
    (hact : t.State.isActive) (hnd : a.activeTimers.Nodup) :
    (0 < t.Remaining - 1 →
      Tick a t = ({ t with Remaining := t.Remaining - 1 }, a)) ∧
    (t.Remaining - 1 ≤ 0 → t.Name = "Custom Timer" →
      t.State = TimerState.activeManual →
      (Tick a t).1.Remaining = t.CustomDurationSec ∧
      (Tick a t).1.State = TimerState.inactive ∧
      t.Name ∉ (Tick a t).2.activeTimers) ∧
    (t.Remaining - 1 ≤ 0 →
      ¬(t.Name = "Custom Timer" ∧ t.State = TimerState.activeManual) →
      (Tick a t).1.Remaining = t.cycleDuration ∧
      (Tick a t).1.State = t.State ∧
      (Tick a t).2.activeTimers = a.activeTimers) := by
  refine ⟨?_, ?_, ?_⟩
  · intro hpos
    have hn : ¬ (t.Remaining - 1 ≤ 0) := by omega
    simp [Tick, hn]
  · intro hle hc hs
    have hne : t.Name ∉ a.activeTimers.erase t.Name := hnd.not_mem_erase
    rw [hc] at hne
    simp [Tick, hle, hc, hs, changeState, RemoveActiveTimer, Alert, PlaySound,
      TimerMode.code, hne]
  · intro hle hno
    simp only [Tick, Alert, PlaySound]
    simp [hle, hno]

theorem c3_tick_witness :
    Tick c5sys1.2 c5sys1.1 =
      ({ c5sys1.1 with Remaining := c5sys1.1.Remaining - 1 }, c5sys1.2) :=
  (c3_tick c5sys1.2 c5sys1.1 (by decide) (by decide)).1 (by decide)

/-- Claim C4: Start on a Paused timer switches to the active state matching
the requested mode without reloading `Remaining`; Start from Inactive or
Unconfigured loads `Remaining` with the mode's effective initial value (the
stored custom duration for the custom timer) and `cycleDuration` with the
mode's effective repeat value, and registers the timer; for the custom
timer with zero custom duration, Start changes nothing. -/
theorem c4_start (a : AppState) (t : DotaTimer) (m : TimerMode) :
    (t.Name = "Custom Timer" ∧ t.CustomDurationSec = 0 → Start a t m = (t, a)) ∧
    (¬(t.Name = "Custom Timer" ∧ t.CustomDurationSec = 0) →
      ((Start a t m).1.State =
        if m = TimerMode.auto then TimerState.activeAuto
        else TimerState.activeManual) ∧
      t.Name ∈ (Start a t m).2.activeTimers ∧
      (t.State = TimerState.paused →
        (Start a t m).1.Remaining = t.Remaining ∧
        (Start a t m).1.cycleDuration = t.cycleDuration) ∧
      ((t.State = TimerState.inactive ∨ t.State = TimerState.unconfigured) →
        (Start a t m).1.Remaining =
          (if t.Name = "Custom Timer" then t.CustomDurationSec
            else if m = TimerMode.auto then t.Normal_Auto_Initial
            else t.Normal_Manual_Initial) ∧
        (Start a t m).1.cycleDuration =
          (if t.Name = "Custom Timer" then t.CustomDurationSec
            else if m = TimerMode.auto then t.Normal_Auto_Repeat
            else t.Normal_Manual_Repeat))) := by
  refine ⟨fun hguard => by simp [Start, hguard], fun hguard => ⟨?_, ?_, ?_, ?_⟩⟩
  · cases m <;> simp [Start, hguard, changeState]
  · cases m <;> simp [Start, hguard, changeState] <;> split_ifs <;>
      simp [mem_AddActiveTimer]
  · intro hp
    cases m <;> simp [Start, hguard, changeState, hp]
  · intro hS
    have hp : t.State ≠ TimerState.paused := by
      rcases hS with h | h <;> simp [h]
    by_cases hc : t.Name = "Custom Timer"
    · have hd : t.CustomDurationSec ≠ 0 := fun h0 => hguard ⟨hc, h0⟩
      cases m <;> simp [Start, hguard, changeState, hp, hc, hd]
    · cases m <;> simp [Start, hguard, changeState, hp, hc]

theorem c4_start_witness :
    (NewDotaTimer roshCfg).Name ∈
      (Start emptyApp (NewDotaTimer roshCfg) TimerMode.manual).2.activeTimers :=
  ((c4_start emptyApp (NewDotaTimer roshCfg) TimerMode.manual).2 (by decide)).2.1

theorem changeState_invariant (a : AppState) (t : DotaTimer)
    (ns : TimerState) (nm : TimerMode) (hnd : a.activeTimers.Nodup) :
    registryInvariant (changeState a t ns nm).1 (changeState a t ns nm).2 ∧
    (changeState a t ns nm).2.activeTimers.Nodup := by
  cases ns
  case inactive | paused | unconfigured =>
    refine ⟨?_, hnd.erase _⟩
    simp [changeState, registryInvariant, TimerState.isActive,
      RemoveActiveTimer, hnd.not_mem_erase]
  all_goals
    constructor
    · simp [changeState, registryInvariant, TimerState.isActive,
        mem_AddActiveTimer]
    · simp only [changeState, AddActiveTimer]
      split_ifs with h
      · exact hnd
      · refine List.nodup_append.mpr ⟨hnd, List.nodup_singleton _, ?_⟩
        intro x hx hx2
        simp only [List.mem_singleton] at hx2
        subst hx2
        exact h hx

theorem applyOp_preserves (op : CoreOp) (t : DotaTimer) (a : AppState)
    (hinv : registryInvariant t a) (hnd : a.activeTimers.Nodup)
    (hguard : ∀ v, op = CoreOp.setCustomDuration v → ¬ t.State.isActive) :
    registryInvariant (applyOp op a t).1 (applyOp op a t).2 ∧
    (applyOp op a t).2.activeTimers.Nodup := by
  cases op with
  | start m =>
    by_cases hg : t.Name = "Custom Timer" ∧ t.CustomDurationSec = 0
    · simpa [applyOp, Start, hg] using And.intro hinv hnd
    · cases m <;>
        · simp only [applyOp, Start, if_neg hg]
          exact changeState_invariant _ _ _ _ hnd
  | pause =>
    cases hts : t.State <;> simp only [applyOp, Pause, hts]
    case activeAuto | activeManual => exact changeState_invariant _ _ _ _ hnd
    all_goals
      refine ⟨?_, hnd⟩
      simpa [registryInvariant, hts] using hinv
  | resume =>
    by_cases hp : t.State = TimerState.paused
    · cases hm : t.mode <;> simp only [applyOp, Resume, hp, if_true, hm] <;>
        exact changeState_invariant _ _ _ _ hnd
    · simp only [applyOp, Resume, if_neg hp]
      exact ⟨hinv, hnd⟩
  | reset =>
    by_cases hc : t.Name = "Custom Timer" <;>
      · simp only [applyOp, Reset, hc, if_true, if_false, reduceIte]
        exact changeState_invariant _ _ _ _ hnd
  | tick =>
    by_cases h0 : t.Remaining - 1 ≤ 0
    · by_cases hcm : t.Name = "Custom Timer" ∧ t.State = TimerState.activeManual
      · obtain ⟨hc1, hc2⟩ := hcm
        simp only [applyOp, Tick, h0, hc1, hc2, and_self, if_true, reduceIte]
        exact changeState_invariant _ _ _ _ (by simpa [Alert, PlaySound] using hnd)
      · simp only [applyOp, Tick, h0, hcm, reduceIte]
        refine ⟨?_, by simpa [Alert, PlaySound] using hnd⟩
        simpa [registryInvariant, Alert, PlaySound] using hinv
    · simp only [applyOp, Tick, h0, reduceIte]
      refine ⟨?_, hnd⟩
      simpa [registryInvariant] using hinv
  | setCustomDuration v =>
    have hna : ¬ t.State.isActive := hguard v rfl
    have hnm : t.Name ∉ a.activeTimers := fun hm => hna (hinv.mp hm)
    refine ⟨?_, hnd⟩
    simp [applyOp, SetCustomDuration, registryInvariant, TimerState.isActive, hnm]

theorem reachableSafe_invariant {s : DotaTimer × AppState}
    (h : ReachableSafe s) :
    registryInvariant s.1 s.2 ∧ s.2.activeTimers.Nodup := by
  induction h with
  | init c =>
    refine ⟨?_, List.nodup_nil⟩
    simp only [registryInvariant, NewDotaTimer]
    split_ifs <;> simp [TimerState.isActive]
  | step op h1 h2 ih => exact applyOp_preserves op _ _ ih.1 ih.2 h2

/-- Claim C1 (amended): after every core operation applied to a reachable
configuration, each timer is in the Active-Timer Registry iff its state is
ActiveAuto or ActiveManual — provided `SetCustomDuration` is only invoked
while the timer is not active (applied to an active timer it leaves the
timer registered while forcing its state to Inactive, breaking the
equivalence; see the counterexample). -/
theorem c1_registry_invariant (s : DotaTimer × AppState)
    (h : ReachableSafe s) : registryInvariant s.1 s.2 :=
  (reachableSafe_invariant h).1

theorem c1_registry_invariant_witness :
    registryInvariant
      (applyOp (CoreOp.start TimerMode.auto) emptyApp (NewDotaTimer roshCfg)).1
      (applyOp (CoreOp.start TimerMode.auto) emptyApp (NewDotaTimer roshCfg)).2 := by
  exact c1_registry_invariant _
    (ReachableSafe.step (CoreOp.start TimerMode.auto)
      (ReachableSafe.init roshCfg) (fun v hv => nomatch hv))

theorem toggleTurbo_roundtrip (t : DotaTimer) :
    (toggleTurboTimer false (toggleTurboTimer true t)).Normal_Auto_Initial =
      t.originalNormal_Auto_Initial ∧
    (toggleTurboTimer false (toggleTurboTimer true t)).Normal_Auto_Repeat =
      t.originalNormal_Auto_Repeat ∧
    (toggleTurboTimer false (toggleTurboTimer true t)).Normal_Manual_Initial =
      t.originalNormal_Manual_Initial ∧
    (toggleTurboTimer false (toggleTurboTimer true t)).Normal_Manual_Repeat =
      t.originalNormal_Manual_Repeat := by
  simp only [toggleTurboTimer, SetNormal_Auto_InitialRepeat,
    SetNormal_Manual_InitialRepeat]
  split_ifs <;> simp

theorem toggleTurbo_enable_pairs (t : DotaTimer) :
    (t.originalTurbo_Auto_Initial = 0 →
      (toggleTurboTimer true t).Normal_Auto_Initial = t.Normal_Auto_Initial ∧
      (toggleTurboTimer true t).Normal_Auto_Repeat = t.Normal_Auto_Repeat) ∧
    (t.originalTurbo_Manual_Initial = 0 →
      (toggleTurboTimer true t).Normal_Manual_Initial = t.Normal_Manual_Initial ∧
      (toggleTurboTimer true t).Normal_Manual_Repeat = t.Normal_Manual_Repeat) ∧
    (t.originalTurbo_Auto_Initial ≠ 0 →
      (toggleTurboTimer true t).Normal_Auto_Initial =
        t.originalTurbo_Auto_Initial ∧
      (toggleTurboTimer true t).Normal_Auto_Repeat =
        t.originalTurbo_Auto_Repeat) ∧
    (t.originalTurbo_Manual_Initial ≠ 0 →
      (toggleTurboTimer true t).Normal_Manual_Initial =
        t.originalTurbo_Manual_Initial ∧
      (toggleTurboTimer true t).Normal_Manual_Repeat =
        t.originalTurbo_Manual_Repeat) := by
  by_cases h1 : t.originalTurbo_Auto_Initial = 0 <;>
    by_cases h2 : t.originalTurbo_Manual_Initial = 0 <;>
      simp [toggleTurboTimer, SetNormal_Auto_InitialRepeat,
        SetNormal_Manual_InitialRepeat, h1, h2]

/-- Claim C6: from a configuration with every timer Inactive or
Unconfigured, ToggleTurbo(true) then ToggleTurbo(false) both succeed and
restore every timer's effective Normal/Auto and Normal/Manual pairs to the
original as-loaded values; enabling leaves the pairs of timers with a zero
turbo-override pair unchanged (so it replaces pairs only where a turbo
override exists) and installs the turbo pair where the override's initial
value is nonzero. -/
theorem c6_turbo_roundtrip (s : TurboSys)
    (h : ∀ t ∈ s.allTimers,
      t.State = TimerState.inactive ∨ t.State = TimerState.unconfigured) :
    ∃ s1 s2 : TurboSys,
      ToggleTurboMode s true = (s1, none) ∧
      ToggleTurboMode s1 false = (s2, none) ∧
      s1.turboMode = true ∧ s2.turboMode = false ∧
      s1.allTimers.length = s.allTimers.length ∧
      s2.allTimers.length = s.allTimers.length ∧
      (∀ i (hs0 : i < s.allTimers.length) (hs2 : i < s2.allTimers.length),
        (s2.allTimers[i]).Normal_Auto_Initial =
          (s.allTimers[i]).originalNormal_Auto_Initial ∧
        (s2.allTimers[i]).Normal_Auto_Repeat =
          (s.allTimers[i]).originalNormal_Auto_Repeat ∧
        (s2.allTimers[i]).Normal_Manual_Initial =
          (s.allTimers[i]).originalNormal_Manual_Initial ∧
        (s2.allTimers[i]).Normal_Manual_Repeat =
          (s.allTimers[i]).originalNormal_Manual_Repeat) ∧
      (∀ i (hs0 : i < s.allTimers.length) (hs1 : i < s1.allTimers.length),
        ((s.allTimers[i]).originalTurbo_Auto_Initial = 0 ∧
            (s.allTimers[i]).originalTurbo_Auto_Repeat = 0 →
          (s1.allTimers[i]).Normal_Auto_Initial =
            (s.allTimers[i]).Normal_Auto_Initial ∧
          (s1.allTimers[i]).Normal_Auto_Repeat =
            (s.allTimers[i]).Normal_Auto_Repeat) ∧
        ((s.allTimers[i]).originalTurbo_Manual_Initial = 0 ∧
            (s.allTimers[i]).originalTurbo_Manual_Repeat = 0 →
          (s1.allTimers[i]).Normal_Manual_Initial =
            (s.allTimers[i]).Normal_Manual_Initial ∧
          (s1.allTimers[i]).Normal_Manual_Repeat =
            (s.allTimers[i]).Normal_Manual_Repeat) ∧
        ((s.allTimers[i]).originalTurbo_Auto_Initial ≠ 0 →
          (s1.allTimers[i]).Normal_Auto_Initial =
            (s.allTimers[i]).originalTurbo_Auto_Initial ∧
          (s1.allTimers[i]).Normal_Auto_Repeat =
            (s.allTimers[i]).originalTurbo_Auto_Repeat) ∧
        ((s.allTimers[i]).originalTurbo_Manual_Initial ≠ 0 →
          (s1.allTimers[i]).Normal_Manual_Initial =
            (s.allTimers[i]).originalTurbo_Manual_Initial ∧
          (s1.allTimers[i]).Normal_Manual_Repeat =
            (s.allTimers[i]).originalTurbo_Manual_Repeat)) := by
  refine ⟨{ allTimers := s.allTimers.map (toggleTurboTimer true),
            turboMode := true },
          { allTimers :=
              (s.allTimers.map (toggleTurboTimer true)).map
                (toggleTurboTimer false),
            turboMode := false },
          ?_, ?_, rfl, rfl, by simp, by simp, ?_, ?_⟩
  · unfold ToggleTurboMode
    rw [if_neg (fun hcond => hcond.2 h)]
  · unfold ToggleTurboMode
    rw [if_neg (fun hcond => by exact absurd hcond.1 (by simp))]
  · intro i hs0 hs2
    simp only [List.getElem_map]
    exact toggleTurbo_roundtrip _
  · intro i hs0 hs1
    simp only [List.getElem_map]
    have hp := toggleTurbo_enable_pairs (s.allTimers[i])
    exact ⟨fun hz => hp.1 hz.1, fun hz => hp.2.1 hz.1, hp.2.2.1, hp.2.2.2⟩

theorem c6_turbo_roundtrip_witness :
    ∃ s1 s2 : TurboSys,
      ToggleTurboMode { allTimers := [NewDotaTimer roshCfg], turboMode := false }
        true = (s1, none) ∧
      ToggleTurboMode s1 false = (s2, none) ∧
      s1.turboMode = true ∧ s2.turboMode = false ∧
      s1.allTimers.length = 1 ∧ s2.allTimers.length = 1 := by
  obtain ⟨s1, s2, h1, h2, h3, h4, h5, h6, -, -⟩ :=
    c6_turbo_roundtrip { allTimers := [NewDotaTimer roshCfg], turboMode := false }
      (by intro t ht; simp at ht; subst ht; exact Or.inl (by decide))
  exact ⟨s1, s2, h1, h2, h3, h4, by simpa using h5, by simpa using h6⟩

theorem digitsVal_digits {cs : List Char} :
    ∀ {acc n : Nat}, digitsVal cs acc = some n → ∀ c ∈ cs, '0' ≤ c ∧ c ≤ '9' := by
  induction cs with
  | nil => simp
  | cons c rest ih =>
    intro acc n h x hx
    unfold digitsVal at h
    by_cases hc : '0' ≤ c ∧ c ≤ '9'
    · rw [if_pos hc] at h
      rcases List.mem_cons.mp hx with rfl | hx2
      · exact hc
      · exact ih h x hx2
    · rw [if_neg hc] at h
      exact absurd h (by simp)

theorem atoi_no_colon {s : String} {v : Int} (h : atoi s = some v) :
    ':' ∉ s.data := by
  intro hmem
  cases hd : s.data with
  | nil => rw [hd] at hmem; exact absurd hmem (by simp)
  | cons c rest =>
    simp only [atoi, hd] at h
    rw [hd] at hmem
    rcases List.mem_cons.mp hmem with heq | hmem2
    · subst heq
      rw [if_neg (by decide), if_neg (by decide)] at h
      cases hdv : digitsVal (':' :: rest) 0 with
      | none => rw [hdv] at h; exact absurd h (by simp)
      | some n =>
        have := (digitsVal_digits hdv ':' (List.mem_cons_self ':' rest)).2
        exact absurd this (by decide)
    · have hdig : ∀ x ∈ rest, '0' ≤ x ∧ x ≤ '9' := by
        by_cases hplus : c = '+'
        · rw [if_pos hplus] at h
          cases rest with
          | nil => exact absurd h (by simp)
          | cons r rs =>
            cases hdv : digitsVal (r :: rs) 0 with
            | none => rw [hdv] at h; exact absurd h (by simp)
            | some n => exact digitsVal_digits hdv
        · rw [if_neg hplus] at h
          by_cases hminus : c = '-'
          · rw [if_pos hminus] at h
            cases rest with
            | nil => exact absurd h (by simp)
            | cons r rs =>
              cases hdv : digitsVal (r :: rs) 0 with
              | none => rw [hdv] at h; exact absurd h (by simp)
              | some n => exact digitsVal_digits hdv
          · rw [if_neg hminus] at h
            cases hdv : digitsVal (c :: rest) 0 with
            | none => rw [hdv] at h; exact absurd h (by simp)
            | some n =>
              intro x hx
              exact digitsVal_digits hdv x (List.mem_cons_of_mem c hx)
      have := (hdig ':' hmem2).2
      exact absurd this (by decide)

theorem splitColonChars_no_colon {l : List Char} (h : ':' ∉ l) :
    ∀ acc, splitColonChars l acc = [acc.reverse ++ l] := by
  induction l with
  | nil => intro acc; simp [splitColonChars]
  | cons c rest ih =>
    intro acc
    have hc : c ≠ ':' := fun e => h (e ▸ List.mem_cons_self c rest)
    have hr : ':' ∉ rest := fun hm => h (List.mem_cons_of_mem c hm)
    rw [splitColonChars, if_neg hc, ih hr]
    simp

theorem splitColonChars_colon {l1 : List Char} (h : ':' ∉ l1) (l2 : List Char) :
    ∀ acc, splitColonChars (l1 ++ ':' :: l2) acc =
      (acc.reverse ++ l1) :: splitColonChars l2 [] := by
  induction l1 with
  | nil => intro acc; simp [splitColonChars]
  | cons c rest ih =>
    intro acc
    have hc : c ≠ ':' := fun e => h (e ▸ List.mem_cons_self c rest)
    have hr : ':' ∉ rest := fun hm => h (List.mem_cons_of_mem c hm)
    rw [List.cons_append, splitColonChars, if_neg hc, ih hr]
    simp

theorem splitColonChars_ne_nil (l : List Char) :
    ∀ acc, splitColonChars l acc ≠ [] := by
  induction l with
  | nil => intro acc; simp [splitColonChars]
  | cons c rest ih =>
    intro acc
    by_cases hc : c = ':' <;> simp [splitColonChars, hc, ih]

theorem joinParts_cons (p : List Char) {L : List (List Char)} (h : L ≠ []) :
    joinParts (p :: L) = p ++ ':' :: joinParts L := by
  cases L with
  | nil => exact absurd rfl h
  | cons q rest => rfl

theorem joinParts_splitColonChars (l : List Char) :
    ∀ acc, joinParts (splitColonChars l acc) = acc.reverse ++ l := by
  induction l with
  | nil => intro acc; simp [splitColonChars, joinParts]
  | cons c rest ih =>
    intro acc
    by_cases hc : c = ':'
    · subst hc
      rw [splitColonChars, if_pos rfl,
        joinParts_cons _ (splitColonChars_ne_nil rest []), ih []]
      simp
    · rw [splitColonChars, if_neg hc, ih (c :: acc)]
      simp

theorem splitColon_two {s m sec : String} (h : splitColon s = [m, sec]) :
    s = m ++ ":" ++ sec := by
  unfold splitColon at h
  have hjoin := joinParts_splitColonChars s.data []
  rcases hL : splitColonChars s.data [] with _ | ⟨p1, L1⟩
  · rw [hL] at h; exact absurd h (by simp)
  · rcases L1 with _ | ⟨p2, L2⟩
    · rw [hL] at h; exact absurd h (by simp)
    · rcases L2 with _ | ⟨p3, L3⟩
      · rw [hL] at h
        simp only [List.map_cons, List.map_nil, List.cons.injEq, and_true] at h
        obtain ⟨h1, h2⟩ := h
        rw [hL] at hjoin
        simp only [joinParts, List.reverse_nil, List.nil_append] at hjoin
        apply String.ext
        rw [String.data_append, String.data_append, ← h1, ← h2, ← hjoin]
        show p1 ++ ':' :: p2 = p1 ++ [':'] ++ p2
        simp
      · rw [hL] at h; exact absurd h (by simp)

theorem splitColon_of_append {m sec : String} (hm : ':' ∉ m.data)
    (hs : ':' ∉ sec.data) : splitColon (m ++ ":" ++ sec) = [m, sec] := by
  unfold splitColon
  have hdata : (m ++ ":" ++ sec).data = m.data ++ ':' :: sec.data := by
    rw [String.data_append, String.data_append,
      show (":" : String).data = [':'] from rfl]
    simp
  rw [hdata, splitColonChars_colon hm sec.data [], splitColonChars_no_colon hs []]
  rfl

theorem parseTime_characterization (s : String) (v : Int) :
    parseTime s = some v ↔ specAcceptsWrapped s v := by
  constructor
  · intro h
    unfold parseTime at h
    cases hv : parseTimeRaw s with
    | none => rw [hv] at h; exact absurd h (by simp)
    | some v0 =>
      simp only [hv] at h
      by_cases hrange : v0 ≤ 0 ∨ v0 > 1800
      · rw [if_pos hrange] at h; exact absurd h (by simp)
      · rw [if_neg hrange] at h
        obtain rfl : v0 = v := Option.some.inj h
        push_neg at hrange
        refine ⟨⟨hrange.1, hrange.2⟩, ?_⟩
        unfold parseTimeRaw at hv
        by_cases hcol : ':' ∈ s.data
        · rw [if_pos hcol] at hv
          right
          cases hsp : splitColon s with
          | nil => simp only [hsp] at hv; exact absurd hv (by simp)
          | cons m L1 =>
            cases L1 with
            | nil => simp only [hsp] at hv; exact absurd hv (by simp)
            | cons sec L2 =>
              cases L2 with
              | cons p3 L3 => simp only [hsp] at hv; exact absurd hv (by simp)
              | nil =>
                simp only [hsp] at hv
                cases ham : atoi m with
                | none => simp only [ham] at hv; exact absurd hv (by simp)
                | some mi =>
                  simp only [ham] at hv
                  cases has : atoi sec with
                  | none => simp only [has] at hv; exact absurd hv (by simp)
                  | some si =>
                    simp only [has] at hv
                    by_cases hsir : 0 ≤ si ∧ si < 60
                    · rw [if_pos hsir] at hv
                      exact ⟨m, sec, mi, si, splitColon_two hsp, ham, has,
                        hsir.1, hsir.2, (Option.some.inj hv).symm⟩
                    · rw [if_neg hsir] at hv
                      exact absurd hv (by simp)
        · rw [if_neg hcol] at hv
          exact Or.inl ⟨hcol, hv⟩
  · rintro ⟨⟨hv1, hv2⟩, harm⟩
    have hrange : ¬(v ≤ 0 ∨ v > 1800) := by omega
    rcases harm with ⟨hnc, hat⟩ | ⟨m, sec, mi, si, rfl, ham, has, hs1, hs2, rfl⟩
    · have hraw : parseTimeRaw s = some v := by
        unfold parseTimeRaw
        rw [if_neg hnc]
        exact hat
      unfold parseTime
      simp only [hraw]
      rw [if_neg hrange]
    · have hmnc := atoi_no_colon ham
      have hsnc := atoi_no_colon has
      have hdata : (m ++ ":" ++ sec).data = m.data ++ ':' :: sec.data := by
        rw [String.data_append, String.data_append,
          show (":" : String).data = [':'] from rfl]
        simp
      have hcol : ':' ∈ (m ++ ":" ++ sec).data := by rw [hdata]; simp
      have hraw : parseTimeRaw (m ++ ":" ++ sec) = some (wrap64 (mi * 60 + si)) := by
        unfold parseTimeRaw
        rw [if_pos hcol, splitColon_of_append hmnc hsnc]
        simp only [ham, has]
        rw [if_pos ⟨hs1, hs2⟩]
      unfold parseTime
      simp only [hraw]
      rw [if_neg hrange]

theorem append_colon_inj :
    ∀ (l1 : List Char) {l2 : List Char} (m1 : List Char) {m2 : List Char},
      ':' ∉ l1 → ':' ∉ m1 →
      l1 ++ ':' :: l2 = m1 ++ ':' :: m2 → l1 = m1 ∧ l2 = m2 := by
  intro l1
  induction l1 with
  | nil =>
    intro l2 m1 m2 h1 h1m h
    cases m1 with
    | nil => simpa using h
    | cons c r =>
      simp only [List.nil_append, List.cons_append, List.cons.injEq] at h
      obtain ⟨hc, -⟩ := h
      subst hc
      exact absurd (List.mem_cons_self _ _) h1m
  | cons c r ih =>
    intro l2 m1 m2 h1 h1m h
    cases m1 with
    | nil =>
      simp only [List.cons_append, List.nil_append, List.cons.injEq] at h
      obtain ⟨hc, -⟩ := h
      subst hc
      exact absurd (List.mem_cons_self _ _) h1
    | cons c1 r1 =>
      simp only [List.cons_append, List.cons.injEq] at h
      obtain ⟨hcc, hrest⟩ := h
      subst hcc
      have h1r : ':' ∉ r := fun hm => h1 (List.mem_cons_of_mem _ hm)
      have h1r1 : ':' ∉ r1 := fun hm => h1m (List.mem_cons_of_mem _ hm)
      obtain ⟨ha, hb⟩ := ih r1 h1r h1r1 hrest
      exact ⟨by rw [ha], hb⟩

/-- Claim C8 counterexample: the input `"4611686018427387905:30"` — the
minutes part is `2^62 + 1`, in range for `Atoi` — is accepted by the code
and stored as 90 seconds, because `min*60 + sec` wraps in 64-bit
arithmetic; the claim's grammar ("resulting value in seconds lies in
(0, 1800]") accepts that string at no value, since its value in seconds is
276701161105643274330. -/
theorem c8_counterexample :
    parseTime "4611686018427387905:30" = some 90 ∧
    (∀ v : Int, ¬ specAccepts "4611686018427387905:30" v) := by
  constructor
  · decide
  · rintro v ⟨⟨hv1, hv2⟩, harm⟩
    rcases harm with ⟨hnc, -⟩ | ⟨m, sec, mi, si, hs, ham, has, hs1, hs2, hv⟩
    · exact hnc (by decide)
    · have hmnc := atoi_no_colon ham
      have hdata : ("4611686018427387905:30" : String).data =
          m.data ++ ':' :: sec.data := by
        rw [hs, String.data_append, String.data_append,
          show (":" : String).data = [':'] from rfl]
        simp
      have hlit : ("4611686018427387905:30" : String).data =
          ("4611686018427387905" : String).data ++ ':' ::
            ("30" : String).data := by decide
      obtain ⟨hm, hsec⟩ :=
        append_colon_inj m.data ("4611686018427387905" : String).data hmnc
          (by decide) (hdata.symm.trans hlit)
      have hmeq : m = "4611686018427387905" := String.ext hm
      have hseceq : sec = "30" := String.ext hsec
      subst hmeq
      subst hseceq
      have hmi : mi = 4611686018427387905 :=
        Option.some.inj
          (ham.symm.trans
            (show atoi "4611686018427387905" = some 4611686018427387905 by
              decide))
      have hsi : si = 30 :=
        Option.some.inj (has.symm.trans (show atoi "30" = some 30 by decide))
      subst hmi
      subst hsi
      omega

/-- Claim C8 (amended): the custom-duration input accepts exactly the
strings of the form `mm:ss` (both parts in-range `Atoi` integers, the
seconds part in `[0, 59]`) or a bare in-range integer, whose resulting
value — computed, as in the source, with `min*60 + sec` in wrapping 64-bit
integer arithmetic — lies in `(0, 1800]`; so `"1:30"` yields 90 while
`"0"`, `"1801"` and `"abc"` are rejected, but a huge minutes part can wrap
into range (`"4611686018427387905:30"` is accepted as 90).  The
`setCustomTime` handler stores the computed value on success and leaves the
timer entirely unchanged on failure. -/
theorem c8_custom_duration_input :
    parseTime "1:30" = some 90 ∧
    parseTime "0" = none ∧
    parseTime "1801" = none ∧
    parseTime "abc" = none ∧
    parseTime "4611686018427387905:30" = some 90 ∧
    (∀ s v, parseTime s = some v ↔ specAcceptsWrapped s v) ∧
    (∀ t s, parseTime s = none → setCustomTime t s = t) ∧
    (∀ t s v, parseTime s = some v →
      setCustomTime t s = SetCustomDuration t v) := by
  refine ⟨by decide, by decide, by decide, by decide, by decide,
    parseTime_characterization, ?_, ?_⟩
  · intro t s h
    unfold setCustomTime
    rw [h]
  · intro t s v h
    unfold setCustomTime
    rw [h]

theorem c8_custom_duration_input_witness :
    setCustomTime (NewDotaTimer customCfg) "abc" = NewDotaTimer customCfg ∧
    setCustomTime (NewDotaTimer customCfg) "1:30" =
      SetCustomDuration (NewDotaTimer customCfg) 90 ∧
    setCustomTime (NewDotaTimer customCfg) "4611686018427387905:30" =
      SetCustomDuration (NewDotaTimer customCfg) 90 :=
  ⟨c8_custom_duration_input.2.2.2.2.2.2.1 (NewDotaTimer customCfg) "abc"
      (by decide),
    c8_custom_duration_input.2.2.2.2.2.2.2 (NewDotaTimer customCfg) "1:30" 90
      (by decide),
    c8_custom_duration_input.2.2.2.2.2.2.2 (NewDotaTimer customCfg)
      "4611686018427387905:30" 90 (by decide)⟩

end D2Timers
